import Mathlib

/-!
Verification development for the `Katna.video` module (file `Katna/video.py`).

The Python source is shallowly embedded below.  Python floats that carry
video timestamps and durations are modelled as rationals (`ℚ`); the
arithmetic performed on them in the source (addition, comparison, floor
division by an integer, truncation by `int(...)`) is exact on the values
the pipeline manipulates, so `ℚ` is a faithful carrier.  External
collaborators (ffmpeg, `FrameExtractor`, `ImageSelector`,
`VideoCompressor`, `helper._check_if_valid_video`) are abstracted as
function parameters, exactly as the spec's §1 declares them out of scope.
Frames are opaque values modelled as `Nat` identifiers.
-/

/-- Python's `int(x)` on a float/rational value: truncation toward zero. -/
def py_int (q : ℚ) : Int :=
  Int.tdiv q.num (q.den : Int)

/-- Substring test on character lists: Python's `needle in haystack`. -/
def containsSub (needle : List Char) : List Char → Bool
  | [] => needle.isEmpty
  | c :: cs => needle.isPrefixOf (c :: cs) || containsSub needle cs

/-- Substring test on strings, Python's `"..." in line`. -/
def strContains (needle s : String) : Bool :=
  containsSub needle.data s.data

/-- `os.path.split(p)[1]` on a POSIX path: the component after the last `/`
(the whole string when there is no `/`). -/
def path_basename (p : String) : String :=
  ⟨p.data.foldl (fun acc c => if c = '/' then [] else acc ++ [c]) []⟩

/-- The prefix of a character list before the first occurrence of `sep`. -/
def take_until (sep : Char) : List Char → List Char
  | [] => []
  | c :: cs => if c = sep then [] else c :: take_until sep cs

/-- Python `name.split(".")[0]`: the part of the file name before the first
dot (the whole name when there is no dot). -/
def file_base (name : String) : String :=
  ⟨take_until '.' name.data⟩

/-- Decimal digits of a natural number, most significant first.  The
`fuel` argument makes the recursion structural; `nat_repr` supplies
enough of it. -/
def nat_repr_aux : Nat → Nat → List Char
  | 0, _ => []
  | fuel + 1, n =>
    if n = 0 then []
    else nat_repr_aux fuel (n / 10) ++ [Char.ofNat (48 + n % 10)]

/-- Decimal rendering of a natural number. -/
def nat_repr (n : Nat) : String :=
  if n = 0 then "0" else ⟨nat_repr_aux (n + 1) n⟩

/-- Decimal rendering of an integer, Python `str(i)` /
`"{0}".format(i)`. -/
def int_repr (i : Int) : String :=
  if i < 0 then "-" ++ nat_repr i.natAbs else nat_repr i.natAbs

/-! ## VideoChunker: `Video._split` (video.py lines 274-306) -/

/-- The break-point computation of `Video._split` (video.py lines 287-290):
`duration // cpu_count() if duration // cpu_count() > 15 else 25`.
Float floor-division `//` is exact floor on the rational model. -/
def Video.break_point (duration : ℚ) (cpu_count : Nat) : ℚ :=
  if 15 < ((⌊duration / (cpu_count : ℚ)⌋ : Int) : ℚ) then
    ((⌊duration / (cpu_count : ℚ)⌋ : Int) : ℚ)
  else 25

/-- The spec's break-point formula (§4.2): `max(25, totalDuration / workerCount)`.
Stated from the spec's words, for comparison with `Video.break_point`. -/
def break_point_spec (duration : ℚ) (cpu_count : Nat) : ℚ :=
  max 25 (duration / (cpu_count : ℚ))

/-- The `while clip_start < duration` loop of `Video._split`
(video.py lines 293-306), emitting `(clip_start, clip_end)` windows.
In the source the loop terminates because the break point is always at
least 16; here `fuel` bounds the iteration count and is chosen strictly
larger than the worst case by `Video._split_windows`, so the embedding
agrees with the source loop. -/
def split_loop (duration break_point min_video_duration : ℚ)
    (fuel : Nat) (clip_start : ℚ) : List (ℚ × ℚ) :=
  if fuel = 0 then []
  else
    if clip_start < duration then
      (clip_start,
        if duration < clip_start + break_point ∨
            duration < clip_start + break_point + min_video_duration then
          duration
        else clip_start + break_point) ::
        split_loop duration break_point min_video_duration (fuel - 1)
          (if duration < clip_start + break_point ∨
              duration < clip_start + break_point + min_video_duration then
            duration
          else clip_start + break_point)
    else []
  termination_by fuel

/-- The window plan computed by `Video._split`: break-point computation plus
the clipping loop, starting at `clip_start = 0`.  `⌈duration⌉ + 1` units of
fuel strictly exceed the iteration count of the Python loop (each iteration
advances `clip_start` by `break_point ≥ 16 ≥ 1`, or jumps to `duration`). -/
def Video._split_windows (duration : ℚ) (cpu_count : Nat)
    (min_video_duration : ℚ) : List (ℚ × ℚ) :=
  split_loop duration (Video.break_point duration cpu_count)
    min_video_duration (⌈duration⌉.toNat + 1) 0

/-- The clip path built by `Video._write_videofile` (video.py lines 321-330):
`os.path.join(temp_folder, "{0}_{1}_{2}.mp4".format(name.split(".")[0],
int(1000 * start), int(1000 * end)))` with `name = os.path.split(path)[1]`. -/
def Video._clipped_file_path (temp_folder video_file_path : String)
    (start finish : ℚ) : String :=
  temp_folder ++ "/" ++ file_base (path_basename video_file_path) ++ "_"
    ++ int_repr (py_int (1000 * start)) ++ "_"
    ++ int_repr (py_int (1000 * finish)) ++ ".mp4"

/-- The clip path as the spec's §4.3 words it:
`{temp_dir}/{baseName}_{start_ms}_{end_ms}.mp4` with
`start_ms = round(start*1000)` (rounding).  Stated from the spec's words,
for comparison with `Video._clipped_file_path`. -/
def clipped_file_path_spec (temp_folder video_file_path : String)
    (start finish : ℚ) : String :=
  temp_folder ++ "/" ++ file_base (path_basename video_file_path) ++ "_"
    ++ int_repr (round (1000 * start) : Int) ++ "_"
    ++ int_repr (round (1000 * finish) : Int) ++ ".mp4"

/-- `Video._split` (video.py lines 274-306): plans the windows and returns
the list of clip file paths produced by `_write_videofile`, one per window,
in loop order. -/
def Video._split (temp_folder file_path : String) (duration : ℚ)
    (cpu_count : Nat) (min_video_duration : ℚ) : List String :=
  (Video._split_windows duration cpu_count min_video_duration).map
    (fun w => Video._clipped_file_path temp_folder file_path w.1 w.2)

/-! ### Characterisation of the split loop

`SplitChain d bp mv s L` holds exactly when the source's `while` loop,
started at `clip_start = s` with duration `d`, break point `bp` and
minimum chunk duration `mv`, emits the window list `L`. -/

inductive SplitChain (d bp mv : ℚ) : ℚ → List (ℚ × ℚ) → Prop
  | nil : SplitChain d bp mv d []
  | clamp : ∀ {s : ℚ}, s < d → (d < s + bp ∨ d < s + bp + mv) →
      SplitChain d bp mv s [(s, d)]
  | step : ∀ {s : ℚ} {L : List (ℚ × ℚ)}, s < d → s + bp ≤ d → s + bp + mv ≤ d →
      SplitChain d bp mv (s + bp) L →
      SplitChain d bp mv s ((s, s + bp) :: L)

lemma split_loop_stop (d bp mv : ℚ) (fuel : Nat) (s : ℚ) (hs : ¬ s < d) :
    split_loop d bp mv fuel s = [] := by
  rw [split_loop.eq_def]
  split <;> simp [hs]

lemma split_loop_chain (d bp mv : ℚ) (hbp : 1 ≤ bp) :
    ∀ (fuel : Nat) (s : ℚ), s < d → ⌈d - s⌉.toNat < fuel →
      SplitChain d bp mv s (split_loop d bp mv fuel s) := by
  intro fuel
  induction fuel with
  | zero => intro s hs hf; omega
  | succ n ih =>
    intro s hs hf
    rw [split_loop.eq_def]
    rw [if_neg (Nat.succ_ne_zero n), if_pos hs]
    by_cases hc : d < s + bp ∨ d < s + bp + mv
    · rw [if_pos hc]
      have hstop : split_loop d bp mv (n + 1 - 1) d = [] :=
        split_loop_stop _ _ _ _ _ (lt_irrefl d)
      rw [hstop]
      exact SplitChain.clamp hs hc
    · rw [if_neg hc]
      push_neg at hc
      obtain ⟨h1, h2⟩ := hc
      rcases eq_or_lt_of_le h1 with heq | hlt
      · have hstop : split_loop d bp mv (n + 1 - 1) (s + bp) = [] := by
          rw [heq]; exact split_loop_stop _ _ _ _ _ (lt_irrefl d)
        rw [hstop]
        have hnil : SplitChain d bp mv (s + bp) [] := by
          rw [heq]; exact SplitChain.nil
        exact SplitChain.step hs h1 h2 hnil
      · have hfuel : ⌈d - (s + bp)⌉.toNat < n := by
          have hds : 0 < ⌈d - s⌉ := Int.ceil_pos.mpr (by linarith)
          have hstep : ⌈d - (s + bp)⌉ ≤ ⌈d - s⌉ - 1 := by
            have hle : d - (s + bp) ≤ (d - s) - 1 := by linarith
            calc ⌈d - (s + bp)⌉ ≤ ⌈(d - s) - 1⌉ := Int.ceil_le_ceil hle
              _ = ⌈d - s⌉ - 1 := Int.ceil_sub_one (d - s)
          omega
        exact SplitChain.step hs h1 h2 (ih (s + bp) hlt (by omega))

lemma break_point_ge_16 (d : ℚ) (w : Nat) : 16 ≤ Video.break_point d w := by
  unfold Video.break_point
  split
  · rename_i h
    have : (15 : ℤ) < ⌊d / (w : ℚ)⌋ := by exact_mod_cast h
    have : (16 : ℤ) ≤ ⌊d / (w : ℚ)⌋ := this
    exact_mod_cast this
  · norm_num

lemma split_windows_chain (d : ℚ) (w : Nat) (mv : ℚ) (hd : 0 < d) :
    SplitChain d (Video.break_point d w) mv 0
      (Video._split_windows d w mv) := by
  unfold Video._split_windows
  apply split_loop_chain d _ mv (le_trans (by norm_num) (break_point_ge_16 d w))
  · exact hd
  · rw [sub_zero]
    have : (0 : ℤ) ≤ ⌈d⌉ := Int.ceil_nonneg hd.le
    omega

lemma split_windows_of_nonpos (d : ℚ) (w : Nat) (mv : ℚ) (hd : ¬ 0 < d) :
    Video._split_windows d w mv = [] :=
  split_loop_stop _ _ _ _ _ hd

/-- Constructor inversion for `SplitChain`, avoiding dependent `cases` on
specialised indices. -/
lemma SplitChain.lt_or_nil {d bp mv s : ℚ} {L : List (ℚ × ℚ)}
    (h : SplitChain d bp mv s L) : s < d ∨ (s = d ∧ L = []) := by
  cases h with
  | nil => exact Or.inr ⟨rfl, rfl⟩
  | clamp hs _ => exact Or.inl hs
  | step hs _ _ _ => exact Or.inl hs

/-- A chain starting strictly before the duration is nonempty. -/
lemma SplitChain.ne_nil {d bp mv s : ℚ} {L : List (ℚ × ℚ)}
    (h : SplitChain d bp mv s L) (hs : s < d) : L ≠ [] := by
  cases h with
  | nil => exact absurd hs (lt_irrefl d)
  | clamp _ _ => exact List.cons_ne_nil _ _
  | step _ _ _ _ => exact List.cons_ne_nil _ _

/-- An empty chain can only start at the duration itself. -/
lemma SplitChain.start_eq_of_nil {d bp mv s : ℚ}
    (h : SplitChain d bp mv s []) : s = d := by
  rcases SplitChain.lt_or_nil h with hs | ⟨hsd, _⟩
  · exact absurd rfl (SplitChain.ne_nil h hs)
  · exact hsd

/-- Inversion of a chain that starts strictly before the duration. -/
lemma SplitChain.cases_lt {d bp mv s : ℚ} {L : List (ℚ × ℚ)}
    (h : SplitChain d bp mv s L) (hs : s < d) :
    ((d < s + bp ∨ d < s + bp + mv) ∧ L = [(s, d)]) ∨
      (s + bp ≤ d ∧ s + bp + mv ≤ d ∧
        ∃ M, L = (s, s + bp) :: M ∧ SplitChain d bp mv (s + bp) M) := by
  cases h with
  | nil => exact absurd hs (lt_irrefl d)
  | clamp _ hc => exact Or.inl ⟨hc, rfl⟩
  | step _ hb hm htail => exact Or.inr ⟨hb, hm, _, rfl, htail⟩

/-- A chain starting at the duration itself is empty. -/
lemma SplitChain.eq_nil' {d bp mv : ℚ} {L : List (ℚ × ℚ)}
    (h : SplitChain d bp mv d L) : L = [] := by
  rcases SplitChain.lt_or_nil h with hd | ⟨_, hL⟩
  · exact absurd hd (lt_irrefl d)
  · exact hL

/-- The split loop is deterministic: a start point has at most one chain. -/
lemma SplitChain.unique {d bp mv s : ℚ} {L1 : List (ℚ × ℚ)}
    (h1 : SplitChain d bp mv s L1) :
    ∀ {L2 : List (ℚ × ℚ)}, SplitChain d bp mv s L2 → L1 = L2 := by
  induction h1 with
  | nil =>
    intro L2 h2
    exact (SplitChain.eq_nil' h2).symm
  | clamp hs hc =>
    intro L2 h2
    rcases SplitChain.cases_lt h2 hs with ⟨_, hL⟩ | ⟨hb, hm, _, _, _⟩
    · exact hL.symm
    · rcases hc with hc | hc
      · exact absurd hb (not_le.mpr hc)
      · exact absurd hm (not_le.mpr hc)
  | step hs hb hm _ ih =>
    intro L2 h2
    rcases SplitChain.cases_lt h2 hs with ⟨hc, hL⟩ | ⟨_, _, M, hL, htail⟩
    · rcases hc with hc | hc
      · exact absurd hb (not_le.mpr hc)
      · exact absurd hm (not_le.mpr hc)
    · rw [hL, ih htail]

/-- Window bounds along a chain. -/
lemma SplitChain.mem_bounds {d bp mv : ℚ} (hbp : 0 < bp) {s : ℚ}
    {L : List (ℚ × ℚ)} (h : SplitChain d bp mv s L) :
    ∀ p ∈ L, s ≤ p.1 ∧ p.1 < p.2 ∧ p.2 ≤ d := by
  induction h with
  | nil => intro p hp; cases hp
  | clamp hs _ =>
    intro p hp
    rcases List.mem_singleton.mp hp with rfl
    exact ⟨le_refl _, hs, le_refl _⟩
  | @step s' L' hs hb _ _ ih =>
    intro p hp
    rcases List.mem_cons.mp hp with rfl | hp
    · refine ⟨le_refl _, ?_, hb⟩
      show s' < s' + bp
      linarith
    · obtain ⟨h1, h2, h3⟩ := ih p hp
      refine ⟨?_, h2, h3⟩
      calc s' ≤ s' + bp := by linarith
        _ ≤ p.1 := h1

/-- The first window of a nonempty chain starts at the chain's start. -/
lemma SplitChain.head_start {d bp mv s : ℚ} {p : ℚ × ℚ} {L : List (ℚ × ℚ)}
    (h : SplitChain d bp mv s (p :: L)) : p.1 = s := by
  rcases SplitChain.lt_or_nil h with hs | ⟨_, hL⟩
  · rcases SplitChain.cases_lt h hs with ⟨_, hL⟩ | ⟨_, _, M, hL, _⟩
    · rw [List.cons_eq_cons] at hL
      rw [hL.1]
    · rw [List.cons_eq_cons] at hL
      rw [hL.1]
  · exact absurd hL (List.cons_ne_nil _ _)

/-- Windows along a chain are contiguous: each end is the next start. -/
lemma SplitChain.chain' {d bp mv : ℚ} {s : ℚ} {L : List (ℚ × ℚ)}
    (h : SplitChain d bp mv s L) :
    List.Chain' (fun a b : ℚ × ℚ => a.2 = b.1) L := by
  induction h with
  | nil => exact List.chain'_nil
  | clamp _ _ => exact List.chain'_singleton _
  | @step s' L' _ _ _ htail ih =>
    cases L' with
    | nil => exact List.chain'_singleton _
    | cons q M =>
      exact List.chain'_cons.mpr ⟨(SplitChain.head_start htail).symm, ih⟩

/-- The last window of a nonempty chain ends exactly at the duration. -/
lemma SplitChain.last_end {d bp mv : ℚ} {s : ℚ} {L : List (ℚ × ℚ)}
    (h : SplitChain d bp mv s L) :
    L ≠ [] → L.getLast?.map Prod.snd = some d := by
  induction h with
  | nil => intro hne; exact absurd rfl hne
  | clamp _ _ => intro _; rfl
  | @step s' L' _ _ _ htail ih =>
    intro _
    cases L' with
    | nil =>
      have hend : s' + bp = d := SplitChain.start_eq_of_nil htail
      simp [List.getLast?, hend]
    | cons q M =>
      rw [List.getLast?_cons_cons]
      exact ih (List.cons_ne_nil q M)

/-- If a chain has at least two windows, its last window is at least
`mv` long. -/
lemma SplitChain.tail_min {d bp mv : ℚ} {s : ℚ} {L : List (ℚ × ℚ)}
    (h : SplitChain d bp mv s L) :
    2 ≤ L.length → ∀ a b : ℚ, L.getLast? = some (a, b) → mv ≤ b - a := by
  induction h with
  | nil => intro hlen; simp at hlen
  | clamp _ _ => intro hlen; simp at hlen
  | @step s' L' _ _ hm htail ih =>
    intro hlen a b hlast
    cases L' with
    | nil => simp at hlen
    | cons q M =>
      rw [List.getLast?_cons_cons] at hlast
      cases M with
      | nil =>
        have hq1 : q.1 = s' + bp := SplitChain.head_start htail
        have hq2 : (q :: ([] : List (ℚ × ℚ))).getLast?.map Prod.snd = some d :=
          SplitChain.last_end htail (List.cons_ne_nil _ _)
        simp [List.getLast?] at hq2 hlast
        have ha : q.1 = a := by rw [hlast]
        have hb2 : q.2 = b := by rw [hlast]
        rw [← ha, ← hb2, hq1, hq2]
        linarith
      | cons r N =>
        exact ih (by simp) a b hlast

/-- If the whole video fits under the break point, the chain from 0 is the
single window `[(0, d)]`. -/
lemma SplitChain.single_of_le {d bp mv : ℚ} {L : List (ℚ × ℚ)}
    (h : SplitChain d bp mv 0 L) (hd : 0 < d) (hle : d ≤ bp) :
    L = [(0, d)] := by
  rcases SplitChain.cases_lt h hd with ⟨_, hL⟩ | ⟨hb, _, M, hL, htail⟩
  · exact hL
  · have hbd : (0 : ℚ) + bp = d := le_antisymm hb (by linarith)
    have hM : SplitChain d bp mv d M := by rwa [hbd] at htail
    rw [hL, SplitChain.eq_nil' hM, hbd]

/-- Windows along a chain are pairwise disjoint (each ends before the
next begins). -/
lemma SplitChain.pairwise_disjoint {d bp mv : ℚ} (hbp : 0 < bp) {s : ℚ}
    {L : List (ℚ × ℚ)} (h : SplitChain d bp mv s L) :
    List.Pairwise (fun a b : ℚ × ℚ => a.2 ≤ b.1) L := by
  induction h with
  | nil => exact List.Pairwise.nil
  | clamp _ _ => exact List.pairwise_singleton _ _
  | step _ _ _ htail ih =>
    refine List.pairwise_cons.mpr ⟨?_, ih⟩
    intro p hp
    exact (SplitChain.mem_bounds hbp htail p hp).1

/-- Window start times strictly increase along a chain. -/
lemma SplitChain.pairwise_starts {d bp mv : ℚ} (hbp : 0 < bp) {s : ℚ}
    {L : List (ℚ × ℚ)} (h : SplitChain d bp mv s L) :
    List.Pairwise (fun a b : ℚ × ℚ => a.1 < b.1) L := by
  induction h with
  | nil => exact List.Pairwise.nil
  | clamp _ _ => exact List.pairwise_singleton _ _
  | @step s' L' _ _ _ htail ih =>
    refine List.pairwise_cons.mpr ⟨?_, ih⟩
    intro p hp
    have h1 := (SplitChain.mem_bounds hbp htail p hp).1
    show s' < p.1
    linarith

/-- Evaluation principle: a concrete chain derivation determines the
value of `Video._split_windows`. -/
lemma split_windows_eq_of_chain {d : ℚ} {w : Nat} {mv : ℚ}
    {L : List (ℚ × ℚ)} (hd : 0 < d)
    (h : SplitChain d (Video.break_point d w) mv 0 L) :
    Video._split_windows d w mv = L :=
  SplitChain.unique (split_windows_chain d w mv hd) h

/-- `SplitChain.step` with the next boundary given explicitly, convenient
for concrete derivations. -/
lemma SplitChain.step' {d bp mv s e : ℚ} {L : List (ℚ × ℚ)}
    (h1 : s < d) (he : e = s + bp) (h2 : e ≤ d) (h3 : e + mv ≤ d)
    (htail : SplitChain d bp mv e L) :
    SplitChain d bp mv s ((s, e) :: L) := by
  subst he
  exact SplitChain.step h1 h2 h3 htail

/-! ## DurationProbe: `Video._get_video_duration_with_ffmpeg`
(video.py lines 368-422)

The external tool invocation itself is I/O; the parsing logic operates on
the list of lines of the tool's diagnostic text (`error.decode(...).splitlines()`),
which is the input of the embedding. -/

/-- Error outcomes of the duration probe.  `notFound` is the `IOError`
raised at video.py lines 396-404, `unparseable` the `IOError` raised at
lines 417-421, and `indexError` the uncaught Python `IndexError` that
`lines[-1]` raises when the diagnostic text is empty (line 396 sits
outside the `try` block). -/
inductive DurationError
  | notFound
  | unparseable
  | indexError
deriving DecidableEq

/-- Is this character matched by the regex class `[0-9]`? -/
def isAsciiDigit (c : Char) : Bool :=
  decide ('0' ≤ c) && decide (c ≤ '9')

/-- Does the source's timestamp regex
`([0-9][0-9]:[0-9][0-9]:[0-9][0-9].[0-9][0-9])` (video.py line 415) match
at the head of the character list?  The unescaped `.` in the pattern
matches any character other than a newline. -/
def timestamp_match_at : List Char → Bool
  | d1 :: d2 :: c1 :: d3 :: d4 :: c2 :: d5 :: d6 :: x :: d7 :: d8 :: _ =>
    isAsciiDigit d1 && isAsciiDigit d2 && (c1 == ':') &&
    isAsciiDigit d3 && isAsciiDigit d4 && (c2 == ':') &&
    isAsciiDigit d5 && isAsciiDigit d6 && !(x == '\n') &&
    isAsciiDigit d7 && isAsciiDigit d8
  | _ => false

/-- `re.findall(pattern, line)[0]`: the leftmost match of the timestamp
regex in the line, as its 11 characters, or `none` when the regex does
not match anywhere (in which case `[0]` raises and the `except` clause of
video.py lines 417-421 fires). -/
def find_timestamp : List Char → Option (List Char)
  | [] => none
  | c :: cs =>
    if timestamp_match_at (c :: cs) then some ((c :: cs).take 11)
    else find_timestamp cs

/-- The timestamp matcher as the spec's §4.1 words it: a literal
`HH:MM:SS.ss` timestamp, with a dot between seconds and centiseconds.
Stated from the spec's words, for comparison with `timestamp_match_at`. -/
def timestamp_match_at_spec : List Char → Bool
  | d1 :: d2 :: c1 :: d3 :: d4 :: c2 :: d5 :: d6 :: x :: d7 :: d8 :: _ =>
    isAsciiDigit d1 && isAsciiDigit d2 && (c1 == ':') &&
    isAsciiDigit d3 && isAsciiDigit d4 && (c2 == ':') &&
    isAsciiDigit d5 && isAsciiDigit d6 && (x == '.') &&
    isAsciiDigit d7 && isAsciiDigit d8
  | _ => false

/-- The leftmost literal `HH:MM:SS.ss` timestamp in a line, following the
spec's words.  For comparison with `find_timestamp`. -/
def find_timestamp_spec : List Char → Option (List Char)
  | [] => none
  | c :: cs =>
    if timestamp_match_at_spec (c :: cs) then some ((c :: cs).take 11)
    else find_timestamp_spec cs

/-- Numeric value of a digit character. -/
def char_digit (c : Char) : Nat :=
  c.toNat - '0'.toNat

/-- Two-digit decimal field of a timestamp. -/
def two_digit (a b : Char) : Nat :=
  char_digit a * 10 + char_digit b

/-- Modelled from the spec: `Katna.helper_functions._convert_to_seconds`
is not part of the visible source (`helper` is imported from outside
`Katna/video.py`); §4.1 specifies the conversion of an `HH:MM:SS.ss`
timestamp as `hours*3600 + minutes*60 + seconds + centiseconds/100`. -/
def _convert_to_seconds : List Char → ℚ
  | [h1, h2, _, m1, m2, _, s1, s2, _, c1, c2] =>
    ((two_digit h1 h2 * 3600 + two_digit m1 m2 * 60 + two_digit s1 s2 : Nat) : ℚ)
      + ((two_digit c1 c2 : Nat) : ℚ) / 100
  | _ => 0

/-- The line-scanning part of `Video._get_video_duration_with_ffmpeg`
(video.py lines 394-422), applied to the lines of the diagnostic text:
check `lines[-1]` for the missing-file marker, take the last line
containing `"Duration:"`, take the first regex match in it, convert. -/
def Video._get_video_duration_with_ffmpeg (lines : List String) :
    Except DurationError ℚ :=
  match lines.getLast? with
  | none => .error .indexError
  | some last =>
    if strContains "No such file or directory" last then .error .notFound
    else
      match (lines.filter (fun l => strContains "Duration:" l)).getLast? with
      | none => .error .unparseable
      | some line =>
        match find_timestamp line.data with
        | none => .error .unparseable
        | some ts => .ok (_convert_to_seconds ts)

/-! ## Worker-pool sizing: `Video.__init__` (video.py lines 41-43) and the
two pools of `extract_video_keyframes` (lines 106-107) -/

/-- `self.n_processes = cpu_count() // 2 - 1; if self.n_processes < 1:
self.n_processes = None`.  `none` is Python's `None`, the "platform
default" sentinel accepted by `multiprocessing.Pool`. -/
def Video.n_processes (cpu_count : Nat) : Option Int :=
  let np : Int := (cpu_count : Int) / 2 - 1
  if np < 1 then none else some np

/-- The sizes handed to `Pool(processes=...)` for the extractor pool and
the selector pool (video.py lines 106-107): both use `self.n_processes`. -/
def Video.extract_pool_sizes (cpu_count : Nat) : Option Int × Option Int :=
  (Video.n_processes cpu_count, Video.n_processes cpu_count)

/-! ## ExtractionPipeline: `Video.extract_video_keyframes`
(video.py lines 94-134) -/

/-- Observable events of one `extract_video_keyframes` call, in program
order: the cleanup of the clip files (line 128) and the invocation of the
selection collaborator with the flattened candidate list (lines 130-132). -/
inductive Ev
  | remove_clips
  | select (candidates : List Nat) (no_of_frames : Nat)
deriving DecidableEq

/-- `self.pool_extractor.map(frame_extractor.extract_candidate_frames,
chunked_videos)` (video.py lines 120-122): results are collected in input
order; a collaborator exception makes the whole `map` raise. -/
def pool_map (f : String → Except String (List Nat)) :
    List String → Except String (List (List Nat))
  | [] => .ok []
  | c :: cs =>
    match f c with
    | .error e => .error e
    | .ok r =>
      match pool_map f cs with
      | .error e => .error e
      | .ok rs => .ok (r :: rs)

/-- Outcome of one `extract_video_keyframes` call: the returned value or
the propagated exception, the clip files of this call still on disk when
control returns to the caller, and the observable event trace. -/
structure ExtractOutcome where
  result : Except String (List Nat)
  clips_on_disk : List String
  events : List Ev

/-- `Video.extract_video_keyframes` (video.py lines 94-134).  The
validity check, candidate extraction and selection collaborators are
parameters.  `_split` creates the clip files (they are on disk from then
on); `_remove_clips` (line 128) runs only after the `with` block of the
extractor pool completes without raising, so on a collaborator error the
exception propagates with the clip files still on disk. -/
def Video.extract_video_keyframes
    (check_valid : String → Bool)
    (extract_candidate_frames : String → Except String (List Nat))
    (select_best_frames : List Nat → Nat → List Nat)
    (no_of_frames : Nat) (file_path : String)
    (temp_folder : String) (duration : ℚ) (cpu_count : Nat)
    (min_video_duration : ℚ) : ExtractOutcome :=
  if !(check_valid file_path) then
    ⟨.error ("Invalid or corrupted video: " ++ file_path), [], []⟩
  else
    let chunked_videos :=
      Video._split temp_folder file_path duration cpu_count min_video_duration
    match pool_map extract_candidate_frames chunked_videos with
    | .error e => ⟨.error e, chunked_videos, []⟩
    | .ok nested =>
      let extracted_candidate_frames := nested.flatten
      ⟨.ok (select_best_frames extracted_candidate_frames no_of_frames),
        [],
        [Ev.remove_clips, Ev.select extracted_candidate_frames no_of_frames]⟩

/-! ## BulkCompressionOrchestrator: `Video.compress_video`
(video.py lines 136-193) and `Video.compress_videos_from_dir`
(lines 195-252) -/

/-- The arguments of one `VideoCompressor.compress_video` invocation
(video.py lines 185-192). -/
structure CompressCall where
  file_path : String
  force_overwrite : Bool
  crf_parameter : Int
  output_video_codec : String
  out_dir_path : String
  out_file_name : String
deriving DecidableEq

/-- `Video.compress_video` (video.py lines 136-193): validity check, then
delegation to the compression collaborator.  An invalid video raises
(`Except.error`); otherwise the collaborator's boolean status is
returned. -/
def Video.compress_video (check_valid : String → Bool)
    (compressor : CompressCall → Bool) (call : CompressCall) :
    Except String Bool :=
  if !(check_valid call.file_path) then
    .error ("Invalid or corrupted video: " ++ call.file_path)
  else
    .ok (compressor call)

/-- The second loop of `compress_videos_from_dir` (video.py lines
243-251): per-file compression of every collected video, ANDing statuses.
The second component records every `compress_video` invocation made
(in order); a raised exception aborts the loop.  Note the call site
forwards `force_overwrite`, `crf_parameter`, `output_video_codec` and
`out_dir_path` but not `out_file_name`, so each call carries
`compress_video`'s default `out_file_name=""`. -/
def compress_dir_loop (check_valid : String → Bool)
    (compressor : CompressCall → Bool) (force_overwrite : Bool)
    (crf_parameter : Int) (output_video_codec out_dir_path : String) :
    List String → Bool → Except String Bool × List CompressCall
  | [], status => (.ok status, [])
  | f :: rest, status =>
    let call : CompressCall :=
      ⟨f, force_overwrite, crf_parameter, output_video_codec, out_dir_path, ""⟩
    match Video.compress_video check_valid compressor call with
    | .error e => (.error e, [call])
    | .ok statusI =>
      let next := compress_dir_loop check_valid compressor force_overwrite
        crf_parameter output_video_codec out_dir_path rest (status && statusI)
      (next.1, call :: next.2)

/-- `Video.compress_videos_from_dir` (video.py lines 195-252).
Pass 1 collects the walked files recognised as valid videos into
`list_of_videos_to_process`; pass 2 is `compress_dir_loop` starting from
`status = True`.  `walk_files` abstracts the paths produced by
`os.walk`; `out_file_name` is accepted (line 203) but never forwarded
(lines 243-250). -/
def Video.compress_videos_from_dir (check_valid : String → Bool)
    (compressor : CompressCall → Bool) (walk_files : List String)
    (force_overwrite : Bool) (crf_parameter : Int)
    (output_video_codec out_dir_path out_file_name : String) :
    Except String Bool × List CompressCall :=
  compress_dir_loop check_valid compressor force_overwrite crf_parameter
    output_video_codec out_dir_path (walk_files.filter check_valid) true

/-! ## Claims about the chunk planner -/

/-- Claim C2 counterexample: the source computes the break point as
`duration // cpu_count()` when that floor exceeds 15 (else 25), not as
`max(25, totalDuration / workerCount)`.  At `totalDuration = 80`,
`workerCount = 4` the code uses 20 while the claimed formula gives 25. -/
theorem C2_counterexample :
    Video.break_point 80 4 = 20 ∧ break_point_spec 80 4 = 25 ∧
      Video.break_point 80 4 ≠ break_point_spec 80 4 := by
  norm_num [Video.break_point, break_point_spec]

/-- Claim C2 (amended): the break point equals the floored per-worker
share `⌊totalDuration / workerCount⌋` whenever that floor exceeds 15
seconds, and 25 otherwise; hence it is always at least 16 (windows of
16-24 seconds can be targeted, contrary to the claimed floor of 25).
The claimed concrete example is unaffected:
`plan(totalDuration=100, workerCount=4, minChunkDuration=5)` uses break
point 25 and yields the windows `[0,25) [25,50) [50,75) [75,100)`. -/
theorem C2_break_point_amended :
    (∀ (d : ℚ) (w : Nat),
      ((15 : ℚ) < ((⌊d / (w : ℚ)⌋ : Int) : ℚ) →
        Video.break_point d w = ((⌊d / (w : ℚ)⌋ : Int) : ℚ))
      ∧ (((⌊d / (w : ℚ)⌋ : Int) : ℚ) ≤ 15 → Video.break_point d w = 25)
      ∧ 16 ≤ Video.break_point d w)
    ∧ Video.break_point 100 4 = 25
    ∧ Video._split_windows 100 4 5 = [(0, 25), (25, 50), (50, 75), (75, 100)] := by
  refine ⟨?_, ?_, ?_⟩
  · intro d w
    refine ⟨?_, ?_, break_point_ge_16 d w⟩
    · intro h
      unfold Video.break_point
      rw [if_pos h]
    · intro h
      unfold Video.break_point
      rw [if_neg (not_lt.mpr h)]
  · norm_num [Video.break_point]
  · have hbp : Video.break_point 100 4 = 25 := by norm_num [Video.break_point]
    refine split_windows_eq_of_chain (by norm_num) ?_
    rw [hbp]
    exact SplitChain.step' (by norm_num) (by norm_num) (by norm_num) (by norm_num)
      (SplitChain.step' (by norm_num) (by norm_num) (by norm_num) (by norm_num)
        (SplitChain.step' (by norm_num) (by norm_num) (by norm_num) (by norm_num)
          (SplitChain.clamp (by norm_num) (by norm_num))))

/-- Claim C2 witness: the amended characterisation applied at concrete
inputs on both sides of the threshold. -/
theorem C2_witness :
    Video.break_point 80 4 = ((⌊(80 : ℚ) / ((4 : Nat) : ℚ)⌋ : Int) : ℚ)
    ∧ Video.break_point 10 4 = 25 :=
  ⟨(C2_break_point_amended.1 80 4).1 (by norm_num),
   (C2_break_point_amended.1 10 4).2.1 (by norm_num)⟩

/-- Claim C3 counterexample: at `totalDuration = 0` (which is `≥ 0` and
`≤ breakPoint`) the planner returns no window at all, not exactly one
window spanning the whole video. -/
theorem C3_counterexample :
    Video._split_windows 0 4 5 = []
    ∧ (0 : ℚ) ≤ Video.break_point 0 4
    ∧ (Video._split_windows 0 4 5).length ≠ 1 := by
  have h : Video._split_windows 0 4 5 = [] :=
    split_windows_of_nonpos 0 4 5 (by norm_num)
  refine ⟨h, ?_, ?_⟩
  · have := break_point_ge_16 0 4
    linarith
  · rw [h]
    simp

/-- Claim C3 (amended): for `totalDuration ≥ 0` and any worker count and
minimum chunk duration, the planner's windows are contiguous,
non-overlapping, satisfy `0 ≤ start < end ≤ totalDuration`, have first
start 0 and last end `totalDuration` whenever `totalDuration > 0`, have a
final window at least `minChunkDuration` long whenever there are at least
two windows, and form exactly one whole-video window when
`0 < totalDuration ≤ breakPoint`; at `totalDuration = 0` the window list
is empty (not a single window). -/
theorem C3_split_windows_amended :
    ∀ (d mv : ℚ) (w : Nat), 0 ≤ d →
      List.Chain' (fun a b : ℚ × ℚ => a.2 = b.1) (Video._split_windows d w mv)
      ∧ List.Pairwise (fun a b : ℚ × ℚ => a.2 ≤ b.1) (Video._split_windows d w mv)
      ∧ (∀ p ∈ Video._split_windows d w mv, 0 ≤ p.1 ∧ p.1 < p.2 ∧ p.2 ≤ d)
      ∧ (d = 0 → Video._split_windows d w mv = [])
      ∧ (0 < d →
          (Video._split_windows d w mv).head?.map Prod.fst = some 0
          ∧ (Video._split_windows d w mv).getLast?.map Prod.snd = some d)
      ∧ (2 ≤ (Video._split_windows d w mv).length →
          ∀ a b : ℚ, (Video._split_windows d w mv).getLast? = some (a, b) →
            mv ≤ b - a)
      ∧ (0 < d → d ≤ Video.break_point d w →
          Video._split_windows d w mv = [(0, d)]) := by
  intro d mv w hd
  have hbp0 : (0 : ℚ) < Video.break_point d w :=
    lt_of_lt_of_le (by norm_num) (break_point_ge_16 d w)
  by_cases hpos : 0 < d
  · have hch := split_windows_chain d w mv hpos
    refine ⟨SplitChain.chain' hch, SplitChain.pairwise_disjoint hbp0 hch, ?_,
      ?_, ?_, SplitChain.tail_min hch, ?_⟩
    · exact SplitChain.mem_bounds hbp0 hch
    · intro h0
      exact absurd h0 (by linarith)
    · intro _
      constructor
      · obtain ⟨p, M, hL⟩ :=
          List.exists_cons_of_ne_nil (SplitChain.ne_nil hch hpos)
        rw [hL]
        rw [hL] at hch
        simp [SplitChain.head_start hch]
      · exact SplitChain.last_end hch (SplitChain.ne_nil hch hpos)
    · intro _ hle
      exact SplitChain.single_of_le hch hpos hle
  · have hL : Video._split_windows d w mv = [] :=
      split_windows_of_nonpos d w mv hpos
    rw [hL]
    refine ⟨List.chain'_nil, List.Pairwise.nil, ?_, fun _ => rfl, ?_, ?_, ?_⟩
    · intro p hp
      cases hp
    · intro h0
      exact absurd h0 hpos
    · intro hlen
      simp at hlen
    · intro h0
      exact absurd h0 hpos

/-- Claim C3 witness: the amended invariants evaluated on the concrete
plan of a 100-second video with 4 workers and minimum chunk duration 5. -/
theorem C3_witness :
    List.Chain' (fun a b : ℚ × ℚ => a.2 = b.1) (Video._split_windows 100 4 5)
    ∧ (Video._split_windows 100 4 5).getLast?.map Prod.snd = some 100
    ∧ (Video._split_windows 100 4 5).head?.map Prod.fst = some 0 := by
  refine ⟨(C3_split_windows_amended 100 5 4 (by norm_num)).1, ?_, ?_⟩
  · exact ((C3_split_windows_amended 100 5 4 (by norm_num)).2.2.2.2.1
      (by norm_num)).2
  · exact ((C3_split_windows_amended 100 5 4 (by norm_num)).2.2.2.2.1
      (by norm_num)).1

/-! ## Claims about clip naming -/

/-- Claim C7 counterexample: the source truncates millisecond offsets
with `int(1000 * start)` rather than rounding them.  At
`start = 2/1250 = 0.0016` seconds, `1000 * start = 1.6`: truncation gives
1 but rounding gives 2, so the produced name differs from the claimed
one. -/
theorem C7_counterexample :
    Video._clipped_file_path "clipped" "video.mp4" (2/1250) 1 =
      "clipped/video_1_1000.mp4"
    ∧ clipped_file_path_spec "clipped" "video.mp4" (2/1250) 1 =
      "clipped/video_2_1000.mp4"
    ∧ Video._clipped_file_path "clipped" "video.mp4" (2/1250) 1 ≠
      clipped_file_path_spec "clipped" "video.mp4" (2/1250) 1 := by
  have h1 : py_int (1000 * (2/1250 : ℚ)) = 1 := by
    norm_num [py_int]
    decide
  have h2 : py_int (1000 * (1 : ℚ)) = 1000 := by
    norm_num [py_int]
  have h3 : round (1000 * (2/1250 : ℚ)) = 2 := by norm_num [round_eq]
  have h4 : round (1000 * (1 : ℚ)) = 1000 := by norm_num [round_eq]
  refine ⟨?_, ?_, ?_⟩
  · rw [Video._clipped_file_path, h1, h2]
    decide
  · rw [clipped_file_path_spec, h3, h4]
    decide
  · rw [Video._clipped_file_path, clipped_file_path_spec, h1, h2, h3, h4]
    decide

/-- Claim C7 (amended): the temporary clip file for a window is named
`{temp_dir}/{baseName}_{start_ms}_{end_ms}.mp4` with
`start_ms = int(start*1000)` — truncation toward zero, not rounding —
so the name is a deterministic function of the source file's base name
and the truncated millisecond boundaries; truncation and rounding agree
whenever the millisecond offsets are whole numbers, as they are for every
window the planner produces from an integral break point. -/
theorem C7_clip_naming_amended :
    (∀ (tf p : String) (s e : ℚ),
      Video._clipped_file_path tf p s e =
        tf ++ "/" ++ file_base (path_basename p) ++ "_"
          ++ int_repr (py_int (1000 * s)) ++ "_"
          ++ int_repr (py_int (1000 * e)) ++ ".mp4")
    ∧ (∀ (tf p1 p2 : String) (s1 e1 s2 e2 : ℚ),
        file_base (path_basename p1) = file_base (path_basename p2) →
        py_int (1000 * s1) = py_int (1000 * s2) →
        py_int (1000 * e1) = py_int (1000 * e2) →
        Video._clipped_file_path tf p1 s1 e1 =
          Video._clipped_file_path tf p2 s2 e2)
    ∧ (∀ q : ℚ, q.den = 1 → py_int q = round q) := by
  refine ⟨fun tf p s e => rfl, ?_, ?_⟩
  · intro tf p1 p2 s1 e1 s2 e2 hb hs he
    rw [Video._clipped_file_path, Video._clipped_file_path, hb, hs, he]
  · intro q hq
    have hnum : ((q.num : ℚ)) = q := by
      exact_mod_cast Rat.den_eq_one_iff q |>.mp hq
    rw [← hnum, py_int]
    rw [Rat.num_intCast, Rat.den_intCast]
    rw [round_intCast]
    simp [Int.tdiv_one]

/-- Claim C7 witness: determinism and the truncation/rounding agreement
at concrete inputs. -/
theorem C7_witness :
    Video._clipped_file_path "clipped" "a.mp4" 0 1 =
      Video._clipped_file_path "clipped" "dir/a.x.mp4" 0 1
    ∧ py_int (25000 : ℚ) = round (25000 : ℚ) :=
  ⟨C7_clip_naming_amended.2.1 "clipped" "a.mp4" "dir/a.x.mp4" 0 1 0 1
      (by decide) rfl rfl,
   C7_clip_naming_amended.2.2 25000 (by norm_num)⟩

/-! ## Claims about the duration probe -/

/-- Conversion of the literal timestamp `00:01:30.50`. -/
lemma convert_00_01_30_dot_50 :
    _convert_to_seconds "00:01:30.50".data = 181/2 := by
  have h : "00:01:30.50".data =
      ['0', '0', ':', '0', '1', ':', '3', '0', '.', '5', '0'] := rfl
  rw [h, _convert_to_seconds]
  have h1 : two_digit '0' '0' = 0 := by decide
  have h2 : two_digit '0' '1' = 1 := by decide
  have h3 : two_digit '3' '0' = 30 := by decide
  have h4 : two_digit '5' '0' = 50 := by decide
  rw [h1, h2, h3, h4]
  norm_num

/-- Conversion of the malformed-separator match `00:01:30x99`. -/
lemma convert_00_01_30_x_99 :
    _convert_to_seconds "00:01:30x99".data = 9099/100 := by
  have h : "00:01:30x99".data =
      ['0', '0', ':', '0', '1', ':', '3', '0', 'x', '9', '9'] := rfl
  rw [h, _convert_to_seconds]
  have h1 : two_digit '0' '0' = 0 := by decide
  have h2 : two_digit '0' '1' = 1 := by decide
  have h3 : two_digit '3' '0' = 30 := by decide
  have h4 : two_digit '9' '9' = 99 := by decide
  rw [h1, h2, h3, h4]
  norm_num

/-- Claim C4 counterexample: the separator position of the source's
timestamp regex is an unescaped `.`, which matches any character, so the
extracted match need not be the first literal `HH:MM:SS.ss` timestamp of
the line.  On the line `Duration: 00:01:30x99 00:01:30.50` the code
parses `00:01:30x99` (90.99 s) although the first dotted timestamp is
`00:01:30.50` (90.5 s). -/
theorem C4_counterexample :
    Video._get_video_duration_with_ffmpeg
      ["Duration: 00:01:30x99 00:01:30.50"] = .ok (9099/100)
    ∧ (find_timestamp_spec "Duration: 00:01:30x99 00:01:30.50".data).map
        _convert_to_seconds = some (181/2)
    ∧ (9099/100 : ℚ) ≠ (181/2 : ℚ) := by
  refine ⟨?_, ?_, by norm_num⟩
  · have h : Video._get_video_duration_with_ffmpeg
        ["Duration: 00:01:30x99 00:01:30.50"] =
        .ok (_convert_to_seconds "00:01:30x99".data) := rfl
    rw [h, convert_00_01_30_x_99]
  · have h : find_timestamp_spec "Duration: 00:01:30x99 00:01:30.50".data =
        some "00:01:30.50".data := rfl
    rw [h]
    simp only [Option.map]
    rw [convert_00_01_30_dot_50]

/-- Claim C4 (amended): duration parsing selects the last line containing
the `Duration:` marker (last match wins across lines), extracts the
leftmost substring of that line matching two digits, `:`, two digits,
`:`, two digits, any character, two digits (the unescaped `.` of the
regex — not necessarily a literal dot), and converts it as
`hours*3600 + minutes*60 + seconds + centiseconds/100`; the timestamp
`00:01:30.50` parses to 90.5 seconds. -/
theorem C4_duration_parse_amended :
    (∀ (lines : List String) (last line : String) (ts : List Char),
      lines.getLast? = some last →
      strContains "No such file or directory" last = false →
      (lines.filter (fun l => strContains "Duration:" l)).getLast? =
        some line →
      find_timestamp line.data = some ts →
      Video._get_video_duration_with_ffmpeg lines =
        .ok (_convert_to_seconds ts))
    ∧ Video._get_video_duration_with_ffmpeg
        ["Duration: 00:02:00.00, start", "Duration: 00:01:30.50, bitrate"] =
        .ok (181/2)
    ∧ _convert_to_seconds "00:01:30.50".data = 181/2 := by
  refine ⟨?_, ?_, convert_00_01_30_dot_50⟩
  · intro lines last line ts h1 h2 h3 h4
    rw [Video._get_video_duration_with_ffmpeg, h1]
    simp only [h2, Bool.false_eq_true, if_false, h3, h4]
  · have h : Video._get_video_duration_with_ffmpeg
        ["Duration: 00:02:00.00, start", "Duration: 00:01:30.50, bitrate"] =
        .ok (_convert_to_seconds "00:01:30.50".data) := rfl
    rw [h, convert_00_01_30_dot_50]

/-- Claim C4 witness: the amended parsing rule applied to a concrete
two-line diagnostic text. -/
theorem C4_witness :
    Video._get_video_duration_with_ffmpeg
      ["some header", "Duration: 00:02:00.00"] =
      .ok (_convert_to_seconds "00:02:00.00".data) :=
  C4_duration_parse_amended.1
    ["some header", "Duration: 00:02:00.00"]
    "Duration: 00:02:00.00" "Duration: 00:02:00.00" "00:02:00.00".data
    rfl (by decide) rfl rfl

/-- Claim C5 counterexample: when the last diagnostic line reports a
missing file and no duration line exists at all, the probe fails with the
not-found error, not with the unparseable-metadata error the claim's
second universal demands. -/
theorem C5_counterexample :
    Video._get_video_duration_with_ffmpeg ["No such file or directory"] =
      .error .notFound
    ∧ (["No such file or directory"] : List String).filter
        (fun l => strContains "Duration:" l) = []
    ∧ DurationError.notFound ≠ DurationError.unparseable := by
  exact ⟨rfl, rfl, by decide⟩

/-- Claim C5 (amended): when the diagnostic stream is nonempty, the probe
fails with the not-found error whenever the last line indicates a missing
file; it fails with the unparseable-metadata error whenever the last line
does not indicate a missing file and either no line contains the duration
marker or the last such line contains no timestamp match; in every such
case the failure is an error result, produced before any numeric duration
value. -/
theorem C5_probe_errors_amended :
    ∀ (lines : List String) (last : String), lines.getLast? = some last →
      (strContains "No such file or directory" last = true →
        Video._get_video_duration_with_ffmpeg lines = .error .notFound)
      ∧ (strContains "No such file or directory" last = false →
          ((lines.filter (fun l => strContains "Duration:" l)).getLast? =
              none →
            Video._get_video_duration_with_ffmpeg lines =
              .error .unparseable)
          ∧ (∀ line : String,
              (lines.filter (fun l => strContains "Duration:" l)).getLast? =
                some line →
              find_timestamp line.data = none →
              Video._get_video_duration_with_ffmpeg lines =
                .error .unparseable)) := by
  intro lines last h1
  constructor
  · intro h2
    rw [Video._get_video_duration_with_ffmpeg, h1]
    simp only [h2, if_true]
  · intro h2
    constructor
    · intro h3
      rw [Video._get_video_duration_with_ffmpeg, h1]
      simp only [h2, Bool.false_eq_true, if_false, h3]
    · intro line h3 h4
      rw [Video._get_video_duration_with_ffmpeg, h1]
      simp only [h2, Bool.false_eq_true, if_false, h3, h4]

/-- Claim C5 witness: both amended failure modes at concrete diagnostic
streams. -/
theorem C5_witness :
    Video._get_video_duration_with_ffmpeg
      ["header", "x: No such file or directory"] = .error .notFound
    ∧ Video._get_video_duration_with_ffmpeg ["no duration here"] =
      .error .unparseable
    ∧ Video._get_video_duration_with_ffmpeg ["Duration: unknown"] =
      .error .unparseable :=
  ⟨(C5_probe_errors_amended ["header", "x: No such file or directory"]
      "x: No such file or directory" rfl).1 (by decide),
   ((C5_probe_errors_amended ["no duration here"] "no duration here"
      rfl).2 (by decide)).1 rfl,
   ((C5_probe_errors_amended ["Duration: unknown"] "Duration: unknown"
      rfl).2 (by decide)).2 "Duration: unknown" rfl rfl⟩

/-! ## Claims about bulk compression -/

/-- Behaviour of the second-pass loop on a list of files that all pass
the validity check: no exception, status is the AND of all per-file
outcomes folded onto the incoming status, and every file is invoked
exactly once, in order. -/
lemma compress_dir_loop_spec (check_valid : String → Bool)
    (compressor : CompressCall → Bool) (fo : Bool) (crf : Int)
    (codec odp : String) :
    ∀ (files : List String) (status : Bool),
      (∀ f ∈ files, check_valid f = true) →
      compress_dir_loop check_valid compressor fo crf codec odp files status =
        (.ok (status && files.all
            (fun f => compressor ⟨f, fo, crf, codec, odp, ""⟩)),
          files.map (fun f => (⟨f, fo, crf, codec, odp, ""⟩ : CompressCall))) := by
  intro files
  induction files with
  | nil =>
    intro status _
    simp [compress_dir_loop]
  | cons f rest ih =>
    intro status hvalid
    have hf : check_valid f = true := hvalid f (List.mem_cons_self f rest)
    rw [compress_dir_loop]
    rw [Video.compress_video]
    simp only [hf, Bool.not_true, Bool.false_eq_true, if_false]
    rw [ih (status && compressor ⟨f, fo, crf, codec, odp, ""⟩)
      (fun g hg => hvalid g (List.mem_cons_of_mem f hg))]
    simp [List.all_cons, Bool.and_assoc]

/-- Claim C6: bulk compression first materialises the list of valid
videos from the walked files, then in a second pass invokes per-file
compression on every collected file — in collection order, with no
short-circuit — and returns the logical AND of all per-file outcomes;
concretely, with 3 valid videos of which the middle one fails to
compress, it returns `false` and all 3 per-file invocations occur. -/
theorem C6_compress_dir :
    (∀ (check_valid : String → Bool) (compressor : CompressCall → Bool)
      (walk_files : List String) (fo : Bool) (crf : Int)
      (codec odp ofn : String),
      (Video.compress_videos_from_dir check_valid compressor walk_files
          fo crf codec odp ofn).1 =
        .ok ((walk_files.filter check_valid).all
          (fun f => compressor ⟨f, fo, crf, codec, odp, ""⟩))
      ∧ (Video.compress_videos_from_dir check_valid compressor walk_files
          fo crf codec odp ofn).2 =
        (walk_files.filter check_valid).map
          (fun f => (⟨f, fo, crf, codec, odp, ""⟩ : CompressCall)))
    ∧ (Video.compress_videos_from_dir (fun _ => true)
        (fun c => !(c.file_path == "d/b.mp4"))
        ["d/a.mp4", "d/b.mp4", "d/c.mp4"] false 23 "libx264" "" "").1 =
      .ok false
    ∧ (Video.compress_videos_from_dir (fun _ => true)
        (fun c => !(c.file_path == "d/b.mp4"))
        ["d/a.mp4", "d/b.mp4", "d/c.mp4"] false 23 "libx264" "" "").2.length
      = 3 := by
  refine ⟨?_, ?_, ?_⟩
  · intro check_valid compressor walk_files fo crf codec odp ofn
    rw [Video.compress_videos_from_dir,
      compress_dir_loop_spec check_valid compressor fo crf codec odp
        (walk_files.filter check_valid) true
        (fun f hf => List.of_mem_filter hf)]
    exact ⟨by rw [Bool.true_and], rfl⟩
  · rfl
  · rfl

/-- Claim C10: the `out_file_name` parameter of directory-level bulk
compression has no effect — two runs differing only in it produce
identical results and identical per-file invocations, and every per-file
invocation carries the default empty `out_file_name`, because the
parameter is never forwarded to `compress_video`. -/
theorem C10_out_file_name_irrelevant :
    ∀ (check_valid : String → Bool) (compressor : CompressCall → Bool)
      (walk_files : List String) (fo : Bool) (crf : Int)
      (codec odp ofn1 ofn2 : String),
      Video.compress_videos_from_dir check_valid compressor walk_files
          fo crf codec odp ofn1 =
        Video.compress_videos_from_dir check_valid compressor walk_files
          fo crf codec odp ofn2
      ∧ (Video.compress_videos_from_dir check_valid compressor walk_files
          fo crf codec odp ofn1).2 =
        (walk_files.filter check_valid).map
          (fun f => (⟨f, fo, crf, codec, odp, ""⟩ : CompressCall)) := by
  intro check_valid compressor walk_files fo crf codec odp ofn1 ofn2
  refine ⟨rfl, ?_⟩
  rw [Video.compress_videos_from_dir,
    compress_dir_loop_spec check_valid compressor fo crf codec odp
      (walk_files.filter check_valid) true
      (fun f hf => List.of_mem_filter hf)]

/-! ## Claim about worker-pool sizing -/

/-- Claim C9: both the extraction pool and the selection pool are sized
by `cpu_count() // 2 - 1`, and whenever that value is below 1 the size
falls back to the platform-default sentinel `None`; a concrete size is
never below 1. -/
theorem C9_pool_sizes :
    ∀ units : Nat,
      (Video.extract_pool_sizes units).2 = (Video.extract_pool_sizes units).1
      ∧ (1 ≤ (units : Int) / 2 - 1 →
          (Video.extract_pool_sizes units).1 = some ((units : Int) / 2 - 1))
      ∧ ((units : Int) / 2 - 1 < 1 →
          (Video.extract_pool_sizes units).1 = none)
      ∧ (∀ k : Int, (Video.extract_pool_sizes units).1 = some k → 1 ≤ k) := by
  intro units
  refine ⟨rfl, ?_, ?_, ?_⟩
  · intro h
    simp [Video.extract_pool_sizes, Video.n_processes, not_lt.mpr h,
      if_neg (not_lt.mpr h)]
  · intro h
    simp [Video.extract_pool_sizes, Video.n_processes, h]
  · intro k hk
    by_cases h : (units : Int) / 2 - 1 < 1
    · simp [Video.extract_pool_sizes, Video.n_processes, h] at hk
    · simp [Video.extract_pool_sizes, Video.n_processes, h] at hk
      omega

/-- Claim C9 witness: pool sizing at 8 execution units (size 3) and at 2
execution units (platform default). -/
theorem C9_witness :
    (1 : Int) ≤ (8 : Nat) / 2 - 1
    ∧ (Video.extract_pool_sizes 8).1 = some (((8 : Nat) : Int) / 2 - 1)
    ∧ (((2 : Nat) : Int) / 2 - 1 < 1)
    ∧ (Video.extract_pool_sizes 2).1 = none := by
  refine ⟨by norm_num, (C9_pool_sizes 8).2.1 (by norm_num), by norm_num,
    (C9_pool_sizes 2).2.2.1 (by norm_num)⟩

/-! ## Claims about the extraction pipeline -/

/-- Concrete window plan of a 50-second video with 2 execution units. -/
lemma split_windows_50_2_5 :
    Video._split_windows 50 2 5 = [(0, 25), (25, 50)] := by
  have hbp : Video.break_point 50 2 = 25 := by norm_num [Video.break_point]
  refine split_windows_eq_of_chain (by norm_num) ?_
  rw [hbp]
  exact SplitChain.step' (by norm_num) (by norm_num) (by norm_num) (by norm_num)
    (SplitChain.clamp (by norm_num) (by norm_num))

/-- Concrete clip paths of a 50-second `v.mp4` with 2 execution units. -/
lemma split_v50 :
    Video._split "clipped" "v.mp4" 50 2 5 =
      ["clipped/v_0_25000.mp4", "clipped/v_25000_50000.mp4"] := by
  rw [Video._split, split_windows_50_2_5]
  show [Video._clipped_file_path "clipped" "v.mp4" 0 25,
        Video._clipped_file_path "clipped" "v.mp4" 25 50] =
    ["clipped/v_0_25000.mp4", "clipped/v_25000_50000.mp4"]
  have h0 : py_int (1000 * (0 : ℚ)) = 0 := by norm_num [py_int]
  have h25 : py_int (1000 * (25 : ℚ)) = 25000 := by norm_num [py_int]
  have h50 : py_int (1000 * (50 : ℚ)) = 50000 := by norm_num [py_int]
  simp only [Video._clipped_file_path]
  rw [h0, h25, h50]
  decide

/-- A candidate-extraction collaborator that succeeds on the first clip
of `split_v50` and raises on any other clip. -/
def ext_fail : String → Except String (List Nat) :=
  fun c =>
    if c == "clipped/v_0_25000.mp4" then .ok [1]
    else .error "CollaboratorError"

/-- Claim C1 counterexample: when the per-chunk extraction collaborator
raises on the second of two clips, the whole call fails — but the
temporary clip files of the call are NOT deleted on the failure path:
`_remove_clips` (video.py line 128) runs after the extraction `with`
block, not in a `finally`, so both clip files are still on disk when the
exception propagates. -/
theorem C1_counterexample :
    (Video.extract_video_keyframes (fun _ => true) ext_fail
        (fun l k => l.take k) 3 "v.mp4" "clipped" 50 2 5).result =
      .error "CollaboratorError"
    ∧ (Video.extract_video_keyframes (fun _ => true) ext_fail
        (fun l k => l.take k) 3 "v.mp4" "clipped" 50 2 5).clips_on_disk =
      ["clipped/v_0_25000.mp4", "clipped/v_25000_50000.mp4"]
    ∧ (Video.extract_video_keyframes (fun _ => true) ext_fail
        (fun l k => l.take k) 3 "v.mp4" "clipped" 50 2 5).clips_on_disk ≠
      [] := by
  have hpm : pool_map ext_fail (Video._split "clipped" "v.mp4" 50 2 5) =
      .error "CollaboratorError" := by
    rw [split_v50]
    rfl
  have houtcome : Video.extract_video_keyframes (fun _ => true) ext_fail
      (fun l k => l.take k) 3 "v.mp4" "clipped" 50 2 5 =
      ⟨.error "CollaboratorError", Video._split "clipped" "v.mp4" 50 2 5,
        []⟩ := by
    simp only [Video.extract_video_keyframes, Bool.not_true,
      Bool.false_eq_true, if_false, hpm]
  refine ⟨by rw [houtcome], by rw [houtcome, split_v50], ?_⟩
  rw [houtcome, split_v50]
  decide

/-- Claim C1 (amended): if the stage-3 candidate-extraction collaborator
raises on any chunk, the whole `extract` call fails with that error and
no partial result — but the temporary clip files created for the call
are NOT deleted on the failure path (they all remain on disk, and no
cleanup event occurs); only on the success path are all clips removed
before the call returns. -/
theorem C1_extract_cleanup_amended :
    ∀ (check_valid : String → Bool)
      (ext : String → Except String (List Nat))
      (sel : List Nat → Nat → List Nat) (n : Nat) (fp tf : String)
      (d : ℚ) (w : Nat) (mv : ℚ),
      check_valid fp = true →
      (∀ e, pool_map ext (Video._split tf fp d w mv) = .error e →
        Video.extract_video_keyframes check_valid ext sel n fp tf d w mv =
          ⟨.error e, Video._split tf fp d w mv, []⟩)
      ∧ (∀ nested, pool_map ext (Video._split tf fp d w mv) = .ok nested →
          (Video.extract_video_keyframes check_valid ext sel n fp tf d w
            mv).clips_on_disk = []) := by
  intro check_valid ext sel n fp tf d w mv hcv
  constructor
  · intro e he
    simp only [Video.extract_video_keyframes, hcv, Bool.not_true,
      Bool.false_eq_true, if_false, he]
  · intro nested hok
    simp only [Video.extract_video_keyframes, hcv, Bool.not_true,
      Bool.false_eq_true, if_false, hok]

/-- Claim C1 witness: the amended failure semantics at the concrete
two-chunk scenario with a collaborator that raises on the second chunk. -/
theorem C1_witness :
    Video.extract_video_keyframes (fun _ => true) ext_fail
      (fun l k => l.take k) 3 "v.mp4" "clipped" 50 2 5 =
      ⟨.error "CollaboratorError", Video._split "clipped" "v.mp4" 50 2 5,
        []⟩ := by
  refine (C1_extract_cleanup_amended (fun _ => true) ext_fail
    (fun l k => l.take k) 3 "v.mp4" "clipped" 50 2 5 rfl).1
    "CollaboratorError" ?_
  rw [split_v50]
  rfl

/-- A successful `Pool.map` is the per-chunk results in input order. -/
lemma pool_map_ok (ext : String → Except String (List Nat))
    (f : String → List Nat) :
    ∀ L : List String, (∀ c ∈ L, ext c = .ok (f c)) →
      pool_map ext L = .ok (L.map f) := by
  intro L
  induction L with
  | nil => intro _; rfl
  | cons c cs ih =>
    intro h
    rw [pool_map]
    rw [h c (List.mem_cons_self c cs)]
    rw [ih (fun x hx => h x (List.mem_cons_of_mem c hx))]
    rfl

/-- Claim C8: when every chunk extracts successfully, the candidate list
handed to the selection collaborator is exactly the concatenation of the
per-chunk candidate lists in chunk order; the clip files are all released
and the cleanup event precedes the selection event in the call's trace
(selection sees the complete set only after all chunks finished); and the
chunks are generated in chronological order of start time. -/
theorem C8_pipeline_order :
    ∀ (check_valid : String → Bool)
      (ext : String → Except String (List Nat))
      (sel : List Nat → Nat → List Nat) (n : Nat) (fp tf : String)
      (d : ℚ) (w : Nat) (mv : ℚ) (f : String → List Nat),
      check_valid fp = true →
      (∀ c ∈ Video._split tf fp d w mv, ext c = .ok (f c)) →
      Video.extract_video_keyframes check_valid ext sel n fp tf d w mv =
        ⟨.ok (sel (((Video._split tf fp d w mv).map f).flatten) n),
          [],
          [Ev.remove_clips,
           Ev.select (((Video._split tf fp d w mv).map f).flatten) n]⟩
      ∧ List.Pairwise (fun a b : ℚ × ℚ => a.1 < b.1)
          (Video._split_windows d w mv) := by
  intro check_valid ext sel n fp tf d w mv f hcv hext
  have hpm := pool_map_ok ext f (Video._split tf fp d w mv) hext
  constructor
  · simp only [Video.extract_video_keyframes, hcv, Bool.not_true,
      Bool.false_eq_true, if_false, hpm]
  · by_cases hpos : 0 < d
    · exact SplitChain.pairwise_starts
        (lt_of_lt_of_le (by norm_num) (break_point_ge_16 d w))
        (split_windows_chain d w mv hpos)
    · rw [split_windows_of_nonpos d w mv hpos]
      exact List.Pairwise.nil

/-- Claim C8 witness: the pipeline ordering at a concrete two-chunk
extraction in which each chunk yields one candidate frame. -/
theorem C8_witness :
    Video.extract_video_keyframes (fun _ => true) (fun _ => .ok [7])
      (fun l k => l.take k) 1 "v.mp4" "clipped" 50 2 5 =
      ⟨.ok ((((Video._split "clipped" "v.mp4" 50 2 5).map
            (fun _ => [7])).flatten).take 1),
        [],
        [Ev.remove_clips,
         Ev.select (((Video._split "clipped" "v.mp4" 50 2 5).map
            (fun _ => [7])).flatten) 1]⟩
    ∧ List.Pairwise (fun a b : ℚ × ℚ => a.1 < b.1)
        (Video._split_windows 50 2 5) :=
  C8_pipeline_order (fun _ => true) (fun _ => .ok [7])
    (fun l k => l.take k) 1 "v.mp4" "clipped" 50 2 5 (fun _ => [7])
    rfl (fun _ _ => rfl)
